import Mathlib

/-!
Shallow embedding of problemo/solverwrap.py: a thin adapter layer over
three external sparse direct solvers (MUMPS via pymatsolver, MKL PARDISO
via pyMKL, SuperLU via scipy.sparse.linalg.splu).

The module-level registry (the try/except import block building the
lists `active` and `solvers` and the constant `BestSolver`) is modelled
as a function of which backend imports succeed.  The class `BaseSolver`
and its subclasses are modelled as a state machine: an instance is a
record holding the optional system matrix `_A` and the optional cached
factorization handle `_Ainv`, plus instrumentation counters recording
how many times the backend factorization routine and the single-vector
solve primitive were invoked.  Backend-specific behaviour (the leaf
calls `Solver(A)` / `Solver(A, 13); run_pardiso(12)` and
`Ainv * rhs` / `Ainv.run_pardiso(33, rhs)` / `Ainv.solve(rhs)`) is an
opaque `Backend` parameter supplying a factorization constructor and a
single-vector solve, exactly the two leaf operations the subclasses
override.  The `hasattr(self, '_Ainv')` check of `BaseSolver.Ainv` and
the `getattr(self, '_Ainv', None) is None` check of
`MKLPardisoSolver.Ainv` coincide on this state space, because a handle,
once constructed, is never `None`; both are the `Option.none` test of
`getAinv`.
-/

namespace Problemo

/-- A complex scalar with exact (rational) components, standing for the
numpy `complex128` values flowing through the solver layer. -/
structure Cx where
  re : ℚ
  im : ℚ
deriving DecidableEq, Repr

instance : Zero Cx := ⟨⟨0, 0⟩⟩

instance : Add Cx := ⟨fun a b => ⟨a.re + b.re, a.im + b.im⟩⟩

/-- A scipy.sparse matrix: a shape plus coordinate-format entries
(duplicate coordinates accumulate, as in scipy COO). -/
structure SpMatrix where
  rows : Nat
  cols : Nat
  entries : List (Nat × Nat × Cx)
deriving DecidableEq, Repr

/-- The scalar stored at position (i, j): the sum of all entry triplets
with those coordinates (zero when there are none). -/
def SpMatrix.entry (A : SpMatrix) (i j : Nat) : Cx :=
  (A.entries.filter (fun e => e.1 == i && e.2.1 == j)).foldl (fun acc e => acc + e.2.2) 0

/-- `qs.getcol(j).toarray().ravel()`: the densified j-th column of a
sparse matrix, as a vector of length `rows`. -/
def SpMatrix.getcolDense (A : SpMatrix) (j : Nat) : List Cx :=
  (List.range A.rows).map (fun i => A.entry i j)

/-- `A.T`: the transpose of a sparse matrix (its shape is the reversed
shape; entries have their coordinates swapped). -/
def SpMatrix.T (A : SpMatrix) : SpMatrix :=
  ⟨A.cols, A.rows, A.entries.map (fun e => (e.2.1, e.1, e.2.2))⟩

/-- A dense (numpy) 2-D array.  `rows`/`cols` record the allocated shape
(what `np.empty(shape)` fixes and `.shape` reports); `data` holds the
columns, since the solver layer only ever slices columns `qs[:, j]`. -/
structure DenseMat where
  rows : Nat
  cols : Nat
  data : List (List Cx)
deriving DecidableEq, Repr

/-- `qs[:, j]`: the j-th column slice of a dense matrix. -/
def DenseMat.col (q : DenseMat) (j : Nat) : List Cx :=
  q.data.getD j []

/-- Densification of a sparse matrix: same shape, column j of the data
is the densified column j. -/
def SpMatrix.toDense (A : SpMatrix) : DenseMat :=
  ⟨A.rows, A.cols, (List.range A.cols).map A.getcolDense⟩

/-- A Python exception escaping the solver layer: a generic `Exception`
with its message, or the registry's fatal `ImportError`. -/
inductive PyErr where
  | exc (msg : String)
  | importError (msg : String)
deriving DecidableEq, Repr

/-- A Python value handed to the `A` property setter: a scipy sparse
matrix, `None`, or anything else (carrying the name of its type). -/
inductive PyValue where
  | sparse (m : SpMatrix)
  | noneVal
  | other (typename : String)
deriving DecidableEq, Repr

/-- The state of one `BaseSolver` (subclass) instance: the class name
(used in the setter's error message), the optional stored matrix `_A`,
the optional cached factorization handle `_Ainv`, and two
instrumentation counters: how many times the backend factorization
routine has been invoked and how many single-vector solves have run. -/
structure SolverState (η : Type) where
  cls : String
  A : Option SpMatrix
  Ainv : Option η
  factorCount : Nat
  solveCount : Nat
deriving DecidableEq, Repr

/-- The two backend-specific leaf operations a subclass supplies:
constructing a factorization handle from the matrix (for MKL PARDISO
this includes the phase-12 analysis+factorization call) and applying
the handle to one dense vector. -/
structure Backend (η : Type) where
  factorize : SpMatrix → η
  solveVec : η → List Cx → List Cx

/-- The `A` property setter: `None` is a no-op, a sparse matrix is
stored, anything else raises naming the adapter class. -/
def setA (s : SolverState η) : PyValue → Except PyErr (SolverState η)
  | .noneVal => .ok s
  | .sparse m => .ok { s with A := some m }
  | .other _ =>
      .error (.exc ("Class " ++ s.cls ++ " can only register SciPy sparse matrices"))

/-- The `A` property getter: raises if the matrix was never set. -/
def getA (s : SolverState η) : Except PyErr SpMatrix :=
  match s.A with
  | none => .error (.exc "System matrix has not been set")
  | some m => .ok m

/-- The `shape` property: `self.A.T.shape`. -/
def shape (s : SolverState η) : Except PyErr (Nat × Nat) :=
  (getA s).map (fun M => (M.T.rows, M.T.cols))

/-- The `Ainv` property: build-if-absent access to the factorization
handle.  If a handle is cached it is returned with no state change;
otherwise the backend factorization routine runs on the currently-set
matrix (raising first if no matrix is set) and the handle is cached.
The factorization counter records the invocation. -/
def getAinv (B : Backend η) (s : SolverState η) : Except PyErr (η × SolverState η) :=
  match s.Ainv with
  | some h => .ok (h, s)
  | none =>
    match s.A with
    | none => .error (.exc "System matrix has not been set")
    | some M =>
      let h := B.factorize M
      .ok (h, { s with Ainv := some h, factorCount := s.factorCount + 1 })

/-- `__init__(self, A=None)`: a fresh instance on which the setter runs
once with the constructor argument. -/
def initSolver (η : Type) (clsName : String) (v : PyValue) : Except PyErr (SolverState η) :=
  setA (⟨clsName, none, none, 0, 0⟩ : SolverState η) v

/-- A right-hand-side batch: a sparse matrix or a dense matrix. -/
inductive RHS where
  | sparse (q : SpMatrix)
  | dense (q : DenseMat)
deriving DecidableEq, Repr

/-- `rhs.shape` of the batch. -/
def RHS.shape : RHS → Nat × Nat
  | .sparse q => (q.rows, q.cols)
  | .dense q => (q.rows, q.cols)

/-- `qIter`: the j-th right-hand-side vector, densified when the batch
is sparse (`getcol(j).toarray().ravel()`), sliced when dense
(`qs[:, j]`). -/
def RHS.col : RHS → Nat → List Cx
  | .sparse q, j => q.getcolDense j
  | .dense q, j => q.col j

/-- The loop body of `__mul__`: solve the listed right-hand-side
vectors in order, each via `self._solve`, which first accesses the
`Ainv` property (building the handle if absent) and then runs the
backend single-vector solve; the solve counter records each
invocation. -/
def solveCols (B : Backend η) :
    SolverState η → List (List Cx) → Except PyErr (List (List Cx) × SolverState η)
  | s, [] => .ok ([], s)
  | s, q :: qs =>
    match getAinv B s with
    | .error e => .error e
    | .ok (h, s₁) =>
      match solveCols B { s₁ with solveCount := s₁.solveCount + 1 } qs with
      | .error e => .error e
      | .ok (rest, s₂) => .ok (B.solveVec h q :: rest, s₂)

/-- `__mul__(self, rhs)`: allocate a complex result of `rhs.shape`,
iterate the columns of `rhs` in index order 0..N-1, and write the
single-vector solve of column j into result column j. -/
def mulBatch (B : Backend η) (s : SolverState η) (rhs : RHS) :
    Except PyErr (DenseMat × SolverState η) :=
  match solveCols B s ((List.range rhs.shape.2).map rhs.col) with
  | .error e => .error e
  | .ok (outCols, s') => .ok (⟨rhs.shape.1, rhs.shape.2, outCols⟩, s')

/-- One client-visible operation on an adapter instance; used to state
lifetime invariants over arbitrary operation sequences.  An operation
that raises leaves the state unchanged (every raise in the source
happens before any attribute mutation). -/
inductive Op where
  | getAinvOp
  | setAOp (v : PyValue)
  | getAOp
  | shapeOp
  | mulOp (rhs : RHS)
deriving Repr

/-- Run one operation, keeping the resulting instance state. -/
def runOp (B : Backend η) (s : SolverState η) : Op → SolverState η
  | .getAinvOp =>
    match getAinv B s with
    | .ok (_, s') => s'
    | .error _ => s
  | .setAOp v =>
    match setA s v with
    | .ok s' => s'
    | .error _ => s
  | .getAOp => s
  | .shapeOp => s
  | .mulOp rhs =>
    match mulBatch B s rhs with
    | .ok (_, s') => s'
    | .error _ => s

/-- Run a sequence of operations from a given instance state. -/
def runOps (B : Backend η) (s : SolverState η) (ops : List Op) : SolverState η :=
  ops.foldl (runOp B) s

/-! ## The module-level backend registry -/

/-- The backend identifiers, in the fixed probe/priority order
mumps, mklpardiso, splu. -/
inductive BackendId where
  | mumps
  | mklpardiso
  | splu
deriving DecidableEq, Repr, Fintype

/-- The probe order of the three import blocks. -/
def priority : List BackendId := [.mumps, .mklpardiso, .splu]

/-- Which of the three backend imports succeed in the current
environment. -/
structure Avail where
  mumps : Bool
  mklpardiso : Bool
  splu : Bool
deriving DecidableEq, Repr

/-- Whether a given backend import succeeds. -/
def isAvail (av : Avail) : BackendId → Bool
  | .mumps => av.mumps
  | .mklpardiso => av.mklpardiso
  | .splu => av.splu

/-- The `active` list: each of the three import blocks appends its
identifier when (and only when) its import succeeds, in probe order. -/
def active (av : Avail) : List BackendId :=
  (if av.mumps then [BackendId.mumps] else []) ++
  (if av.mklpardiso then [BackendId.mklpardiso] else []) ++
  (if av.splu then [BackendId.splu] else [])

/-- The adapter classes defined by the module. -/
inductive AdapterClass where
  | mumpsSolver
  | mklPardisoSolver
  | superLUSolver
deriving DecidableEq, Repr

/-- The adapter class wrapping each backend. -/
def classOf : BackendId → AdapterClass
  | .mumps => .mumpsSolver
  | .mklpardiso => .mklPardisoSolver
  | .splu => .superLUSolver

/-- The `solvers` dict: built by three unconditional assignments after
each class definition, so it holds all three entries regardless of
which imports succeeded. -/
def solvers : List (BackendId × AdapterClass) :=
  [(.mumps, .mumpsSolver), (.mklpardiso, .mklPardisoSolver), (.splu, .superLUSolver)]

/-- What the module exposes after a successful import: the ordered
`active` list, the `solvers` mapping, and `BestSolver`. -/
structure ModuleExports where
  activeIds : List BackendId
  solverMap : List (BackendId × AdapterClass)
  bestSolver : AdapterClass
deriving DecidableEq, Repr

/-- Module initialization: raise ImportError when no backend loaded,
otherwise expose `active`, `solvers` and `BestSolver = solvers[active[0]]`. -/
def moduleLoad (av : Avail) : Except PyErr ModuleExports :=
  match (active av).head? with
  | none => .error (.importError "Problemo: could not load backend")
  | some i =>
    match solvers.lookup i with
    | some c => .ok ⟨active av, solvers, c⟩
    | none => .error (.exc "KeyError")

/-! ## Helper lemmas about the solve loop -/

/-- When a factorization handle is already cached, the solve loop maps
the backend solve over the columns, touching only the solve counter. -/
theorem solveCols_cached (B : Backend η) (h : η) :
    ∀ (qs : List (List Cx)) (s : SolverState η), s.Ainv = some h →
      solveCols B s qs =
        .ok (qs.map (B.solveVec h), { s with solveCount := s.solveCount + qs.length }) := by
  intro qs
  induction qs with
  | nil =>
      intro s hs
      simp [solveCols]
  | cons q qs ih =>
      intro s hs
      have h1 : getAinv B s = .ok (h, s) := by simp [getAinv, hs]
      have h2 := ih { s with solveCount := s.solveCount + 1 } hs
      have h3 : s.solveCount + 1 + qs.length = s.solveCount + (qs.length + 1) := by omega
      simp [solveCols, h1, h2, h3]

/-- With a matrix set, the solve loop succeeds and maps the backend
solve with the instance's handle (the cached one if present, otherwise
the freshly factorized one) over the columns. -/
theorem solveCols_matrix_set (B : Backend η) (M : SpMatrix) (qs : List (List Cx))
    (s : SolverState η) (hA : s.A = some M) :
    ∃ s', solveCols B s qs =
      .ok (qs.map (B.solveVec (s.Ainv.getD (B.factorize M))), s') := by
  cases qs with
  | nil => exact ⟨s, by simp [solveCols]⟩
  | cons q qs =>
      cases hAinv : s.Ainv with
      | some h =>
          refine ⟨{ s with solveCount := s.solveCount + (q :: qs).length }, ?_⟩
          rw [solveCols_cached B h (q :: qs) s hAinv, hAinv]
          rfl
      | none =>
          have h1 : getAinv B s = .ok (B.factorize M,
              { s with Ainv := some (B.factorize M), factorCount := s.factorCount + 1 }) := by
            simp [getAinv, hAinv, hA]
          refine ⟨⟨s.cls, s.A, some (B.factorize M), s.factorCount + 1,
            s.solveCount + 1 + qs.length⟩, ?_⟩
          simp only [solveCols, h1]
          rw [solveCols_cached B (B.factorize M) qs _ rfl]
          rfl

/-- Reading each position of a list of columns back in order
reconstructs the list. -/
theorem map_range_getD (L : List (List Cx)) :
    (List.range L.length).map (fun j => L.getD j []) = L := by
  induction L with
  | nil => simp
  | cons x L ih =>
      rw [List.length_cons, List.range_succ_eq_map, List.map_cons, List.map_map]
      simp only [List.getD_cons_zero, Function.comp_def, Nat.succ_eq_add_one, List.getD_cons_succ]
      rw [ih]

/-! ## Claims about the batch solve -/

/-- Claim C1: with a system matrix set, the batch solve returns a dense
complex matrix of the same shape as rhs whose column j, for j in
natural index order 0..N-1, is the backend single-vector solve of the
(densified) column j of rhs, using the instance's factorization
handle. -/
theorem mul_solves_each_column (B : Backend η) (c : String) (M : SpMatrix)
    (a : Option η) (fc sc : Nat) (rhs : RHS) :
    ∃ s', mulBatch B ⟨c, some M, a, fc, sc⟩ rhs =
      .ok (⟨rhs.shape.1, rhs.shape.2,
        (List.range rhs.shape.2).map
          (fun j => B.solveVec (a.getD (B.factorize M)) (rhs.col j))⟩, s') := by
  obtain ⟨s', hs'⟩ := solveCols_matrix_set B M ((List.range rhs.shape.2).map rhs.col)
    ⟨c, some M, a, fc, sc⟩ rfl
  refine ⟨s', ?_⟩
  rw [mulBatch, hs']
  simp [List.map_map, Function.comp]

/-- Claim C8: solving a sparse right-hand-side batch gives exactly the
same dense complex result (and the same final instance state) as
solving the dense batch with the same columns. -/
theorem mul_sparse_dense_agree (B : Backend η) (s : SolverState η) (q : SpMatrix) :
    mulBatch B s (RHS.sparse q) = mulBatch B s (RHS.dense q.toDense) := by
  have hL : ((List.range q.cols).map q.getcolDense).length = q.cols := by simp
  have hcols : (List.range (RHS.dense q.toDense).shape.2).map (RHS.dense q.toDense).col
      = (List.range (RHS.sparse q).shape.2).map (RHS.sparse q).col := by
    show (List.range q.cols).map (q.toDense).col = (List.range q.cols).map q.getcolDense
    calc (List.range q.cols).map (q.toDense).col
        = (List.range (((List.range q.cols).map q.getcolDense).length)).map
            (fun j => ((List.range q.cols).map q.getcolDense).getD j []) := by rw [hL]; rfl
      _ = (List.range q.cols).map q.getcolDense := map_range_getD _
  rw [mulBatch, mulBatch, hcols]
  rfl

/-- Claim C10: a batch with zero columns solves to a dense complex
result of the same (empty) shape with the instance state untouched: no
backend factorization is constructed and no single-vector solve runs,
whether or not a matrix is set. -/
theorem empty_batch_solve (B : Backend η) (s : SolverState η) (rhs : RHS)
    (h : rhs.shape.2 = 0) :
    mulBatch B s rhs = .ok (⟨rhs.shape.1, 0, []⟩, s) := by
  rw [mulBatch, h]
  simp [solveCols]

/-- A test-double backend with a trivial handle type whose solve is the
identity. -/
def testBackend : Backend Unit := ⟨fun _ => (), fun _ q => q⟩

/-- Claim C10 witness: a 5-row, 0-column sparse batch solves on an
unconfigured instance to the empty 5-by-0 result. -/
theorem empty_batch_solve_witness :
    (RHS.sparse ⟨5, 0, []⟩).shape.2 = 0 ∧
      mulBatch testBackend (⟨"MKLPardisoSolver", none, none, 0, 0⟩ : SolverState Unit)
        (RHS.sparse ⟨5, 0, []⟩) =
        .ok (⟨5, 0, []⟩, ⟨"MKLPardisoSolver", none, none, 0, 0⟩) :=
  ⟨rfl, empty_batch_solve testBackend _ _ rfl⟩

/-! ## The factorization-count invariant -/

/-- Lifetime invariant of an adapter instance: the backend
factorization routine has run at most once, and has not run at all
while no handle is cached. -/
def FactorInv (s : SolverState η) : Prop :=
  s.factorCount ≤ 1 ∧ (s.Ainv = none → s.factorCount = 0)

/-- A successful handle access preserves the invariant and caches the
returned handle. -/
theorem getAinv_inv (B : Backend η) (s : SolverState η) (hI : FactorInv s)
    (h : η) (s' : SolverState η) (he : getAinv B s = .ok (h, s')) :
    FactorInv s' ∧ s'.Ainv = some h := by
  cases hAinv : s.Ainv with
  | some h₀ =>
      rw [getAinv, hAinv] at he
      obtain ⟨rfl, rfl⟩ : h₀ = h ∧ s = s' := by
        simpa using he
      exact ⟨hI, hAinv⟩
  | none =>
      cases hM : s.A with
      | none => rw [getAinv, hAinv, hM] at he; exact absurd he (by simp)
      | some M =>
          rw [getAinv, hAinv, hM] at he
          obtain ⟨rfl, rfl⟩ : B.factorize M = h ∧
              (⟨s.cls, some M, some (B.factorize M), s.factorCount + 1,
                s.solveCount⟩ : SolverState η) = s' := by
            simpa using he
          refine ⟨⟨?_, by simp⟩, rfl⟩
          have := hI.2 hAinv
          simp [this]

/-- The solve loop preserves the invariant. -/
theorem solveCols_inv (B : Backend η) :
    ∀ (qs : List (List Cx)) (s : SolverState η), FactorInv s →
      ∀ r s', solveCols B s qs = .ok (r, s') → FactorInv s' := by
  intro qs
  induction qs with
  | nil =>
      intro s hI r s' he
      rw [solveCols] at he
      obtain ⟨-, rfl⟩ : ([] : List (List Cx)) = r ∧ s = s' := by simpa using he
      exact hI
  | cons q qs ih =>
      intro s hI r s' he
      cases hg : getAinv B s with
      | error e => simp [solveCols, hg] at he
      | ok p =>
          obtain ⟨h, s₁⟩ := p
          obtain ⟨hI₁, -⟩ := getAinv_inv B s hI h s₁ hg
          simp only [solveCols, hg] at he
          cases hrec : solveCols B { s₁ with solveCount := s₁.solveCount + 1 } qs with
          | error e => rw [hrec] at he; exact absurd he (by simp)
          | ok p₂ =>
              obtain ⟨rest, s₂⟩ := p₂
              rw [hrec] at he
              obtain ⟨-, rfl⟩ : B.solveVec h q :: rest = r ∧ s₂ = s' := by simpa using he
              exact ih { s₁ with solveCount := s₁.solveCount + 1 } ⟨hI₁.1, hI₁.2⟩ rest s₂ hrec

/-- Every client-visible operation preserves the invariant. -/
theorem runOp_inv (B : Backend η) (s : SolverState η) (hI : FactorInv s) (op : Op) :
    FactorInv (runOp B s op) := by
  cases op with
  | getAinvOp =>
      rw [runOp]
      cases hg : getAinv B s with
      | error e => exact hI
      | ok p => exact (getAinv_inv B s hI p.1 p.2 (by rw [hg])).1
  | setAOp v =>
      cases v with
      | noneVal => exact hI
      | sparse m => exact ⟨hI.1, hI.2⟩
      | other t => exact hI
  | getAOp => exact hI
  | shapeOp => exact hI
  | mulOp rhs =>
      rw [runOp]
      cases hm : mulBatch B s rhs with
      | error e => exact hI
      | ok p =>
          rw [mulBatch] at hm
          cases hs : solveCols B s ((List.range rhs.shape.2).map rhs.col) with
          | error e => rw [hs] at hm; exact absurd hm (by simp)
          | ok p₂ =>
              rw [hs] at hm
              obtain ⟨outCols, s'⟩ := p₂
              obtain rfl : (⟨rhs.shape.1, rhs.shape.2, outCols⟩, s') = p := by simpa using hm
              exact solveCols_inv B _ s hI outCols s' hs

/-- Operation sequences preserve the invariant. -/
theorem runOps_inv (B : Backend η) (ops : List Op) :
    ∀ s : SolverState η, FactorInv s → FactorInv (runOps B s ops) := by
  induction ops with
  | nil => intro s h; exact h
  | cons op ops ih => intro s h; exact ih (runOp B s op) (runOp_inv B s h op)

/-- Claim C2: on any freshly constructed adapter instance, however many
operations (handle accesses, solves, matrix assignments) are performed,
the backend factorization routine runs at most once; and once a handle
is cached, a further access returns that same handle with the state
(in particular the factorization counter) unchanged. -/
theorem factorize_at_most_once (B : Backend η) (c : String) (v : PyValue)
    (s₀ : SolverState η) (h₀ : initSolver η c v = .ok s₀) (ops : List Op) :
    (runOps B s₀ ops).factorCount ≤ 1 ∧
      ∀ h, (runOps B s₀ ops).Ainv = some h →
        getAinv B (runOps B s₀ ops) = .ok (h, runOps B s₀ ops) := by
  have hI : FactorInv s₀ := by
    cases v with
    | noneVal =>
        obtain rfl : (⟨c, none, none, 0, 0⟩ : SolverState η) = s₀ := by
          simpa [initSolver, setA] using h₀
        exact ⟨Nat.zero_le 1, fun _ => rfl⟩
    | sparse m =>
        obtain rfl : (⟨c, some m, none, 0, 0⟩ : SolverState η) = s₀ := by
          simpa [initSolver, setA] using h₀
        exact ⟨Nat.zero_le 1, fun _ => rfl⟩
    | other t => exact absurd h₀ (by simp [initSolver, setA])
  have hF := runOps_inv B ops s₀ hI
  exact ⟨hF.1, fun h hh => by rw [getAinv, hh]⟩

/-- A concrete 2-by-2 sparse matrix used by the witnesses. -/
def M2 : SpMatrix := ⟨2, 2, [(0, 0, ⟨1, 0⟩), (1, 1, ⟨2, 0⟩)]⟩

/-- Claim C2 witness: constructing without a matrix, then setting M2
and accessing the handle three times (one of them through a solve)
factorizes exactly once and keeps returning the cached handle. -/
theorem factorize_at_most_once_witness :
    initSolver Unit "SuperLUSolver" PyValue.noneVal =
      .ok (⟨"SuperLUSolver", none, none, 0, 0⟩ : SolverState Unit) ∧
    ((runOps testBackend ⟨"SuperLUSolver", none, none, 0, 0⟩
        [Op.setAOp (PyValue.sparse M2), Op.getAinvOp,
         Op.mulOp (RHS.sparse M2), Op.getAinvOp]).factorCount ≤ 1 ∧
      ∀ h, (runOps testBackend ⟨"SuperLUSolver", none, none, 0, 0⟩
          [Op.setAOp (PyValue.sparse M2), Op.getAinvOp,
           Op.mulOp (RHS.sparse M2), Op.getAinvOp]).Ainv = some h →
        getAinv testBackend (runOps testBackend ⟨"SuperLUSolver", none, none, 0, 0⟩
            [Op.setAOp (PyValue.sparse M2), Op.getAinvOp,
             Op.mulOp (RHS.sparse M2), Op.getAinvOp]) =
          .ok (h, runOps testBackend ⟨"SuperLUSolver", none, none, 0, 0⟩
            [Op.setAOp (PyValue.sparse M2), Op.getAinvOp,
             Op.mulOp (RHS.sparse M2), Op.getAinvOp])) :=
  ⟨rfl, factorize_at_most_once testBackend "SuperLUSolver" PyValue.noneVal
    ⟨"SuperLUSolver", none, none, 0, 0⟩ rfl
    [Op.setAOp (PyValue.sparse M2), Op.getAinvOp,
     Op.mulOp (RHS.sparse M2), Op.getAinvOp]⟩

/-! ## The matrix setter -/

/-- Claim C3 counterexample: rejecting a non-sparse value (here a dense
ndarray, or a dict) raises a message that names the adapter class, not
the type of the offending value: the message for two values of
different types is identical and does not mention the type name. -/
theorem setA_error_no_typename :
    setA (⟨"MumpsSolver", some M2, none, 0, 0⟩ : SolverState Unit) (PyValue.other "ndarray") =
      .error (.exc "Class MumpsSolver can only register SciPy sparse matrices") ∧
    setA (⟨"MumpsSolver", some M2, none, 0, 0⟩ : SolverState Unit) (PyValue.other "ndarray") =
      setA (⟨"MumpsSolver", some M2, none, 0, 0⟩ : SolverState Unit) (PyValue.other "dict") ∧
    ¬ ("ndarray".toList <:+:
        "Class MumpsSolver can only register SciPy sparse matrices".toList) := by
  refine ⟨rfl, rfl, ?_⟩
  decide

/-- Claim C3 (amended): the setter stores a recognized sparse matrix,
treats None as a no-op that keeps any previously-set matrix, and for
any other value raises an unsupported-input error that names the
adapter class (not the offending type), leaving the stored matrix
unchanged. -/
theorem setA_spec (B : Backend η) (s : SolverState η) (m : SpMatrix) (t : String) :
    setA s PyValue.noneVal = .ok s ∧
    setA s (PyValue.sparse m) = .ok { s with A := some m } ∧
    setA s (PyValue.other t) =
      .error (.exc ("Class " ++ s.cls ++ " can only register SciPy sparse matrices")) ∧
    runOp B s (.setAOp (PyValue.other t)) = s :=
  ⟨rfl, rfl, rfl, rfl⟩

/-! ## Unconfigured instances -/

/-- Claim C4 counterexample: on an instance whose matrix was never set,
the batch solve of a zero-column dense rhs does not fail: it returns
the empty 3-by-0 dense result. -/
theorem unset_empty_solve_succeeds :
    (⟨"SuperLUSolver", none, none, 0, 0⟩ : SolverState Unit).A = none ∧
    mulBatch testBackend (⟨"SuperLUSolver", none, none, 0, 0⟩ : SolverState Unit)
        (RHS.dense ⟨3, 0, []⟩) =
      .ok (⟨3, 0, []⟩, ⟨"SuperLUSolver", none, none, 0, 0⟩) :=
  ⟨rfl, rfl⟩

/-- Claim C4 (amended): on an instance with no matrix set (and hence no
cached handle), the matrix getter, the shape accessor, and the batch
solve of any rhs with at least one column all raise the
matrix-has-not-been-set configuration error (shape and solve propagate
the getter's failure). -/
theorem unset_matrix_errors (B : Backend η) (c : String) (fc sc : Nat) (rhs : RHS)
    (hn : 0 < rhs.shape.2) :
    getA (⟨c, none, none, fc, sc⟩ : SolverState η) =
      .error (.exc "System matrix has not been set") ∧
    shape (⟨c, none, none, fc, sc⟩ : SolverState η) =
      .error (.exc "System matrix has not been set") ∧
    mulBatch B ⟨c, none, none, fc, sc⟩ rhs =
      .error (.exc "System matrix has not been set") := by
  refine ⟨rfl, rfl, ?_⟩
  obtain ⟨n, hn2⟩ : ∃ n, rhs.shape.2 = n + 1 :=
    ⟨rhs.shape.2 - 1, by omega⟩
  rw [mulBatch, hn2, List.range_succ_eq_map, List.map_cons, solveCols]
  rfl

/-- Claim C4 witness: on a fresh SuperLU adapter with no matrix, get,
shape, and the solve of a one-column rhs all raise. -/
theorem unset_matrix_errors_witness :
    0 < (RHS.dense ⟨1, 1, [[⟨5, 0⟩]]⟩).shape.2 ∧
    (getA (⟨"SuperLUSolver", none, none, 0, 0⟩ : SolverState Unit) =
        .error (.exc "System matrix has not been set") ∧
      shape (⟨"SuperLUSolver", none, none, 0, 0⟩ : SolverState Unit) =
        .error (.exc "System matrix has not been set") ∧
      mulBatch testBackend ⟨"SuperLUSolver", none, none, 0, 0⟩
          (RHS.dense ⟨1, 1, [[⟨5, 0⟩]]⟩) =
        .error (.exc "System matrix has not been set")) :=
  ⟨by decide, unset_matrix_errors testBackend "SuperLUSolver" 0 0
    (RHS.dense ⟨1, 1, [[⟨5, 0⟩]]⟩) (by decide)⟩

/-! ## Shape and stale factorizations -/

/-- Claim C6: with a system matrix of shape (m, n) set, the shape
accessor reports the transposed shape (n, m). -/
theorem shape_transposed (c : String) (M : SpMatrix) (a : Option η) (fc sc : Nat) :
    shape (⟨c, some M, a, fc, sc⟩ : SolverState η) = .ok (M.cols, M.rows) :=
  rfl

/-- Claim C7: once a factorization handle is cached, assigning a new
sparse matrix stores it but leaves the cached handle in place, and a
later handle access (as performed by every solve) still returns the
stale handle without refactorizing. -/
theorem stale_factorization_persists (B : Backend η) (c : String) (A₀ : Option SpMatrix)
    (h : η) (fc sc : Nat) (M' : SpMatrix) :
    setA (⟨c, A₀, some h, fc, sc⟩ : SolverState η) (PyValue.sparse M') =
      .ok ⟨c, some M', some h, fc, sc⟩ ∧
    getAinv B ⟨c, some M', some h, fc, sc⟩ = .ok (h, ⟨c, some M', some h, fc, sc⟩) :=
  ⟨rfl, rfl⟩

/-- Equality of embedded Python results is decidable, so the concrete
scenarios below can be checked by evaluation. -/
instance exceptDecEq {ε α : Type} [DecidableEq ε] [DecidableEq α] :
    DecidableEq (Except ε α) := fun a b =>
  match a, b with
  | .error e, .error e' =>
      if h : e = e' then isTrue (h ▸ rfl) else isFalse (fun hc => h (by injection hc))
  | .error _, .ok _ => isFalse (fun hc => Except.noConfusion hc)
  | .ok _, .error _ => isFalse (fun hc => Except.noConfusion hc)
  | .ok v, .ok v' =>
      if h : v = v' then isTrue (h ▸ rfl) else isFalse (fun hc => h (by injection hc))

/-! ## The backend registry -/

/-- Claim C5: the registry probes mumps, mklpardiso, splu in that fixed
priority order, so active lists the available identifiers in priority
order, and BestSolver is the adapter class of the first
(highest-priority) available identifier. -/
theorem registry_priority_default (av : Avail) (h : (active av).isEmpty = false) :
    active av = priority.filter (isAvail av) ∧
    isAvail av ((active av).headD .splu) = true ∧
    moduleLoad av = .ok ⟨active av, solvers, classOf ((active av).headD .splu)⟩ := by
  obtain ⟨m, k, l⟩ := av
  revert h
  cases m <;> cases k <;> cases l <;> decide

/-- Claim C5 witness: with all three backends available, active is
[mumps, mklpardiso, splu] and BestSolver is the MUMPS adapter. -/
theorem registry_priority_default_witness :
    (active ⟨true, true, true⟩).isEmpty = false ∧
    (active ⟨true, true, true⟩ = priority.filter (isAvail ⟨true, true, true⟩) ∧
      isAvail ⟨true, true, true⟩ ((active ⟨true, true, true⟩).headD .splu) = true ∧
      moduleLoad ⟨true, true, true⟩ =
        .ok ⟨active ⟨true, true, true⟩, solvers,
          classOf ((active ⟨true, true, true⟩).headD .splu)⟩) :=
  ⟨rfl, registry_priority_default ⟨true, true, true⟩ rfl⟩

/-- Claim C9 counterexample: in an environment where only splu loads,
mumps is not among the available identifiers yet the exposed solvers
mapping still contains an entry for it. -/
theorem solvers_contains_unavailable :
    active ⟨false, false, true⟩ = [BackendId.splu] ∧
    solvers.lookup BackendId.mumps = some AdapterClass.mumpsSolver ∧
    moduleLoad ⟨false, false, true⟩ =
      .ok ⟨[BackendId.splu], solvers, AdapterClass.superLUSolver⟩ := by
  decide

/-- Claim C9 (amended): the exposed mapping always contains an entry
for all three backend identifiers, whether or not their libraries
loaded; availability is reflected only in the active list, which holds
exactly the identifiers whose backend import succeeded. -/
theorem solvers_keys_all (av : Avail) (h : (active av).isEmpty = false) :
    moduleLoad av = .ok ⟨active av, solvers, classOf ((active av).headD .splu)⟩ ∧
    solvers.map Prod.fst = priority ∧
    ∀ i, i ∈ active av ↔ isAvail av i = true := by
  obtain ⟨m, k, l⟩ := av
  revert h
  cases m <;> cases k <;> cases l <;> decide

/-- Claim C9 witness: with mumps and splu available but mklpardiso
missing, the exposed mapping still has all three keys while active
holds exactly mumps and splu. -/
theorem solvers_keys_all_witness :
    (active ⟨true, false, true⟩).isEmpty = false ∧
    (moduleLoad ⟨true, false, true⟩ =
        .ok ⟨active ⟨true, false, true⟩, solvers,
          classOf ((active ⟨true, false, true⟩).headD .splu)⟩ ∧
      solvers.map Prod.fst = priority ∧
      ∀ i, i ∈ active ⟨true, false, true⟩ ↔ isAvail ⟨true, false, true⟩ i = true) :=
  ⟨rfl, solvers_keys_all ⟨true, false, true⟩ rfl⟩

end Problemo
